import Mathlib

/-!
Verification of the easy-a2a step-composition core: a shallow embedding of
`src/builder.ts` (session assembler, AI step, pipeline builder, agent-args
resolution), `src/tools.ts` (tool bridge) and `src/executor.ts` (executor
adapter), with theorems about the assembled session, settings resolution,
builder immutability, tool dispatch and event draining.

Machine integers do not occur in this core; all data is strings, lists and
booleans. JavaScript truthiness of optional booleans and optional strings is
made explicit (`truthy`, and `""` being falsy). Fallible code (thrown
exceptions) is embedded as `Except String`.
-/

deriving instance DecidableEq for Except

namespace EasyA2A

/-- A chat message as sent to the OpenAI-compatible client:
`{ role, content }` with both fields strings. -/
structure ChatMessage where
  role : String
  content : String
deriving DecidableEq, Repr

/-- A task-history entry, modelled by its protocol `role` and by the result of
the external SDK function `getContent` applied to it: `none` when no textual
content can be extracted, `some c` otherwise. -/
structure ProtoMessage where
  role : String
  content : Option String
deriving DecidableEq, Repr

/-- The slice of an A2A `Task` that `createSession` reads: its optional
`history` array. -/
structure Task where
  history : Option (List ProtoMessage)
deriving DecidableEq, Repr

/-- JavaScript truthiness of an optional boolean: `undefined` is falsy,
`true`/`false` are themselves. -/
def truthy : Option Bool → Bool
  | none => false
  | some b => b

/-- `JSON.stringify` applied to the forwarded-arguments array, where each
forwarded argument is modelled by its own JSON serialization: the array
serializes to the comma-separated elements between square brackets
(so the empty array serializes to `"[]"`). -/
def stringifyArgs (args : List String) : String :=
  "[" ++ String.intercalate "," args ++ "]"

/-- The history-entry mapping performed inside `createSession`
(`src/builder.ts` lines 73-91): extract the content, return `undefined`
(here `none`) when it is absent, empty, `"{}"`, `"[]"`, `"null"` or
`"undefined"`, otherwise map the protocol role `"agent"` to `"assistant"`
and any other role to `"user"`. -/
def mapHistoryEntry (m : ProtoMessage) : Option ChatMessage :=
  match m.content with
  | none => none
  | some c =>
    if c = "" ∨ c = "\x7b\x7d" ∨ c = "[]" ∨ c = "null" ∨ c = "undefined" then
      none
    else
      some { role := if m.role = "agent" then "assistant" else "user"
             content := c }

/-- The fixed system message advertising tool availability
(`src/builder.ts` lines 98-106). -/
def agentsAdvertMessage : ChatMessage :=
  { role := "system"
    content := "The assistant can call agents to help with the users request. Always get a list of the available agents/agent then use the agents whenever possible." }

/-- `createSession` from `src/builder.ts` lines 66-115. Optional parameters
are `Option`s; JavaScript truthiness is explicit: the arguments message is
built whenever `args` is defined (an empty array is truthy), the content
message whenever `content` is a non-empty string. -/
def createSession (messages : Option (List ChatMessage)) (task : Option Task)
    (args : Option (List String)) (content : Option String) (agents : Bool) :
    List ChatMessage :=
  let historicalMessages : Option (List ChatMessage) :=
    (task.bind Task.history).map (fun h => h.filterMap mapHistoryEntry)
  let argumentsMessage : List ChatMessage :=
    match args with
    | some a => [{ role := "system", content := stringifyArgs a }]
    | none => []
  let contentMessage : List ChatMessage :=
    match content with
    | some c => if c = "" then [] else [{ role := "user", content := c }]
    | none => []
  let agentsMessage : List ChatMessage :=
    if agents then [agentsAdvertMessage] else []
  (messages.getD []) ++ (historicalMessages.getD []) ++ argumentsMessage
    ++ contentMessage ++ agentsMessage

/-! ### Spec-side description of the session assembler

A second description of the assembled session, following the words of the
specification (§3 Session, §4.1): five independent blocks in a fixed order,
the history block obtained by first dropping the entries without meaningful
textual content and then mapping the survivors to role-tagged messages. -/

/-- The spec's list of null-equivalent content strings. -/
def droppedContents : List String := ["", "\x7b\x7d", "[]", "null", "undefined"]

/-- Spec-side keep-predicate on a history entry: its extracted textual
content is present and not null-equivalent. -/
def specKeepEntry (m : ProtoMessage) : Bool :=
  match m.content with
  | none => false
  | some c => !(decide (c ∈ droppedContents))

/-- Spec-side mapping of a kept history entry to a role-tagged message. -/
def specMapEntry (m : ProtoMessage) : ChatMessage :=
  { role := if m.role = "agent" then "assistant" else "user"
    content := m.content.getD "" }

/-- Spec-side history block: empty without a task or history, otherwise
filter then map. -/
def specHistoryBlock : Option Task → List ChatMessage
  | none => []
  | some t =>
    match t.history with
    | none => []
    | some h => (h.filter specKeepEntry).map specMapEntry

/-- Spec-side forwarded-arguments block: one system message carrying the
JSON serialization of the argument sequence, when arguments are passed. -/
def specArgsBlock : Option (List String) → List ChatMessage
  | none => []
  | some a => [{ role := "system", content := stringifyArgs a }]

/-- Spec-side current-content block: one user message when the content is
supplied and non-empty. -/
def specContentBlock : Option String → List ChatMessage
  | none => []
  | some c => if c = "" then [] else [{ role := "user", content := c }]

/-- Spec-side tool-advertising block. -/
def specToolsBlock : Bool → List ChatMessage
  | false => []
  | true => [agentsAdvertMessage]

/-- Spec-side session: the five blocks in the fixed documented order. -/
def specSession (messages : Option (List ChatMessage)) (task : Option Task)
    (args : Option (List String)) (content : Option String) (agents : Bool) :
    List ChatMessage :=
  (messages.getD []) ++ specHistoryBlock task ++ specArgsBlock args
    ++ specContentBlock content ++ specToolsBlock agents

lemma mapHistoryEntry_eq_spec (h : List ProtoMessage) :
    h.filterMap mapHistoryEntry = (h.filter specKeepEntry).map specMapEntry := by
  induction h with
  | nil => rfl
  | cons m rest ih =>
    rcases m with ⟨role, content⟩
    cases content with
    | none =>
      simp [List.filterMap_cons, List.filter_cons, mapHistoryEntry,
        specKeepEntry, ih]
    | some c =>
      by_cases hc : c = "" ∨ c = "\x7b\x7d" ∨ c = "[]" ∨ c = "null" ∨ c = "undefined"
      · have hmem : c ∈ droppedContents := by
          simpa [droppedContents] using hc
        simp [List.filterMap_cons, List.filter_cons, mapHistoryEntry,
          specKeepEntry, hc, hmem, ih]
      · have hmem : c ∉ droppedContents := by
          simpa [droppedContents] using hc
        simp [List.filterMap_cons, List.filter_cons, mapHistoryEntry,
          specKeepEntry, hc, hmem, ih, specMapEntry]

lemma createSession_eq_specSession (messages : Option (List ChatMessage))
    (task : Option Task) (args : Option (List String))
    (content : Option String) (agents : Bool) :
    createSession messages task args content agents
      = specSession messages task args content agents := by
  rcases task with _ | ⟨_ | h⟩ <;> cases args <;> cases content <;>
    cases agents <;>
    simp [createSession, specSession, specHistoryBlock, specArgsBlock,
      specContentBlock, specToolsBlock, mapHistoryEntry_eq_spec]

/-! ### Tool bridge (`src/tools.ts`)

Tools are schema-validated function definitions closing over an external
agent / client / relay handle. The handles, parameter schemas and
asynchronous handlers live outside this core (they call the external SDK),
so a tool is modelled by its name; the dispatch logic of `toolifyAgents` is
embedded faithfully as a total function on runtime-type tags, with the
thrown `Error` embedded as `Except.error`. -/

/-- A tool definition, modelled by its `name` (the parameter schema and the
handler close over external handles and are elided). -/
structure Tool where
  name : String
deriving DecidableEq, Repr

/-- The runtime type of the target handed to the tool bridge: an
`AgentRelay`, an `A2AService` agent instance, an `A2AClient`, or any other
value (the unrecognized case). The handles themselves are external and
elided. -/
inductive AgentTarget where
  | relay
  | service
  | client
  | other
deriving DecidableEq, Repr

/-- `toolifyAgentInstance` from `src/tools.ts` lines 23-63: the four tools
for a single in-process agent instance. -/
def toolifyAgentInstance : List Tool :=
  [⟨"message-send"⟩, ⟨"get-agent-card"⟩, ⟨"tasks-get"⟩, ⟨"tasks-cancel"⟩]

/-- `toolifyClient` from `src/tools.ts` lines 66-104: the four tools for a
remote agent client handle. -/
def toolifyClient : List Tool :=
  [⟨"message-send"⟩, ⟨"get-agent-card"⟩, ⟨"tasks-get"⟩, ⟨"tasks-cancel"⟩]

/-- `toolifyAgentRelay` from `src/tools.ts` lines 109-184: the seven tools
for a relay managing many named agents. -/
def toolifyAgentRelay : List Tool :=
  [⟨"relay-message-send"⟩, ⟨"relay-tasks-get"⟩, ⟨"relay-tasks-cancel"⟩,
   ⟨"relay-agents-get-card-all"⟩, ⟨"relay-agents-get-ids"⟩,
   ⟨"relay-agents-search"⟩, ⟨"relay-agents-get-card"⟩]

/-- `toolifyAgents` from `src/tools.ts` lines 187-196: dispatch on the
runtime type of the target; an unrecognized type throws
`Error("Invalid agents type")` synchronously (the function is not `async`,
so the throw is a plain synchronous exception, embedded as
`Except.error`). -/
def toolifyAgents : AgentTarget → Except String (List Tool)
  | .relay => .ok toolifyAgentRelay
  | .service => .ok toolifyAgentInstance
  | .client => .ok toolifyClient
  | .other => .error "Invalid agents type"

/-! ### AI step (`src/builder.ts` `aiStep`) -/

/-- The optional `settings` bundle of `AIStepArgs` (`src/builder.ts` lines
46-52): four optional boolean fields. An absent field is `none`. -/
structure AIStepSettings where
  includeHistory : Option Bool
  includeArgs : Option Bool
  includeContent : Option Bool
  disableAgents : Option Bool
deriving DecidableEq, Repr

/-- The default settings object substituted by the destructuring default in
`aiStep` (`src/builder.ts` lines 138-143). -/
def defaultSettings : AIStepSettings :=
  { includeHistory := some true
    includeArgs := some true
    includeContent := some true
    disableAgents := some false }

/-- The settings resolution actually performed by `aiStep`: the JavaScript
destructuring default `settings = {...}` replaces the settings object only
when it is absent as a whole; a supplied object is used as-is, with its
absent fields staying `undefined`. -/
def resolveSettings : Option AIStepSettings → AIStepSettings
  | none => defaultSettings
  | some s => s

/-- The boolean value a settings field effectively has inside `aiStep`,
where it is used in a JavaScript conditional: resolve the bundle, then take
the truthiness of the field selected by `proj`. -/
def effectiveSetting (proj : AIStepSettings → Option Bool)
    (s : Option AIStepSettings) : Bool :=
  truthy (proj (resolveSettings s))

/-- The fields of `AIStepArgs` (`src/builder.ts` lines 44-56) that the
session assembly of `aiStep` reads: the optional settings bundle, the
`messages` of the request body (`none` when no body is supplied, in which
case the destructuring default supplies `{model, messages: []}`), and the
optional peer-agent target. The model-client handle and request options are
external and elided. -/
structure AIStepArgsModel where
  settings : Option AIStepSettings
  bodyMessages : Option (List ChatMessage)
  agents : Option AgentTarget
deriving DecidableEq, Repr

/-- The fields of the step parameters that `aiStep` reads while assembling
the session: the current task (`params.context.State().task`), the
forwarded arguments (each modelled by its JSON serialization) and the
current content string. -/
structure StepParamsModel where
  task : Task
  args : List String
  content : String
deriving DecidableEq, Repr

/-- The session assembly performed by `aiStep` (`src/builder.ts` lines
135-159): resolve the settings, build the tool list from the configured
peer agents (throwing for an unrecognized target), then call
`createSession` with the body messages, the task when `includeHistory` is
truthy, the forwarded arguments when `includeArgs` is truthy, the content
when `includeContent` is truthy, and the advert flag set exactly when the
tool list is non-empty (independently of `disableAgents`). -/
def aiStepSession (sa : AIStepArgsModel) (params : StepParamsModel) :
    Except String (List ChatMessage) :=
  let settings := resolveSettings sa.settings
  match (match sa.agents with
         | some a => toolifyAgents a
         | none => Except.ok []) with
  | .error e => .error e
  | .ok agentList =>
    Except.ok (createSession (some (sa.bodyMessages.getD []))
      (if truthy settings.includeHistory then some params.task else none)
      (if truthy settings.includeArgs then some params.args else none)
      (if truthy settings.includeContent then some params.content else none)
      (decide (0 < agentList.length)))

/-! ### AI step output (`src/builder.ts` lines 180-184) -/

/-- The `message` of a completion choice: its optional textual `content`
(`null` embedded as `none`). -/
structure CompletionMessage where
  content : Option String
deriving DecidableEq, Repr

/-- One element of a completion's `choices` array. -/
structure Choice where
  message : CompletionMessage
deriving DecidableEq, Repr

/-- A chat completion as returned by the model client: its `choices`
array (other fields are not read by the step's output code). -/
structure ChatCompletion where
  choices : List Choice
deriving DecidableEq, Repr

/-- The value of `completion.choices[0].message.content ?? []`: either the
content string, or the empty-array fallback. -/
inductive Parts where
  | text (s : String)
  | emptyList
deriving DecidableEq, Repr

/-- The step output `{parts, args}` built by `aiStep`. -/
structure AIStepOutput where
  parts : Parts
  args : List ChatCompletion
deriving DecidableEq, Repr

/-- The return statement of `aiStep` (`src/builder.ts` lines 180-184):
`{ parts: completion.choices[0].message.content ?? [], args: [completion] }`.
The element access `choices[0]` is unguarded; on an empty `choices` array
it reads `.message` of `undefined`, a synchronous `TypeError`, embedded as
`Except.error`. -/
def aiStepOutput (completion : ChatCompletion) : Except String AIStepOutput :=
  match completion.choices with
  | [] => .error "TypeError: cannot read properties of undefined (reading message)"
  | c :: _ =>
    .ok { parts :=
            match c.message.content with
            | some s => .text s
            | none => .emptyList
          args := [completion] }

/-! ### Pipeline builder (`src/builder.ts` `OpenaiEngineBuilder`) -/

/-- The `OpenaiEngineBuilder` state: the model-client handle (opaque, kept
as a number), the step list accepted by the constructor (`none` when the
`steps?` argument is omitted), and the optional peer-agent configuration.
Steps themselves are opaque values of a type parameter `σ`. -/
structure OpenaiEngineBuilder (σ : Type) where
  aiClient : Nat
  steps : Option (List σ)
  agents : Option AgentTarget
deriving DecidableEq, Repr

/-- Modelled from the spec: `EngineBuilder.build` (external `@artinet/sdk`)
returns the step list accumulated so far and fails when none has been
built yet; `addStep` catches that failure and snapshots "an empty list if
none yet built". -/
def OpenaiEngineBuilder.build {σ : Type} (b : OpenaiEngineBuilder σ) :
    Except String (List σ) :=
  match b.steps with
  | none => .error "no steps"
  | some l => .ok l

/-- The `try { steps = this.build() } catch {}` prologue of `addStep`
(`src/builder.ts` lines 233-236): the current step list, or the empty list
when `build` throws. -/
def OpenaiEngineBuilder.snapshotSteps {σ : Type} (b : OpenaiEngineBuilder σ) :
    List σ :=
  match b.build with
  | .ok l => l
  | .error _ => []

/-- `addStep` from `src/builder.ts` lines 211-242: snapshot the current
step list and return a new builder over the same client handle, the
snapshot with the step appended, and the unchanged peer-agent
configuration. -/
def OpenaiEngineBuilder.addStep {σ : Type} (b : OpenaiEngineBuilder σ)
    (step : σ) : OpenaiEngineBuilder σ :=
  { aiClient := b.aiClient
    steps := some (b.snapshotSteps ++ [step])
    agents := b.agents }

/-! ### Builder entry point (`src/builder.ts` `createAgentArgs`,
`AIAgentBuilder`) -/

/-- The runtime shape of the `agents` argument accepted by the builder
entry point: an array of named agents, an `AgentRelay` instance, an
`A2AService` instance, an `A2AClient` instance, a non-null object with a
`callerId` field (an `AgentRelayConfig`), or any other defined value
(`otherValue`, matching none of the recognized shapes and carrying no
`callerId`). Handles and configuration payloads are external and
elided. -/
inductive AgentArgsShape where
  | namedArray
  | relayInstance
  | serviceInstance
  | clientInstance
  | callerIdObject
  | otherValue
deriving DecidableEq, Repr

/-- `createAgentArgs` from `src/builder.ts` lines 335-358: `undefined`
passes through; an array builds a fresh relay; a relay instance is kept; a
service or client instance is kept as a single agent; an object with a
`callerId` field builds a relay from it; anything else leaves both `relay`
(null) and `agent` (undefined) unset, so `relay ?? agent` evaluates to
`undefined`. -/
def createAgentArgs : Option AgentArgsShape → Option AgentTarget
  | none => none
  | some .namedArray => some .relay
  | some .relayInstance => some .relay
  | some .serviceInstance => some .service
  | some .clientInstance => some .client
  | some .callerIdObject => some .relay
  | some .otherValue => none

/-- `AIAgentBuilder` from `src/builder.ts` lines 367-376 (also the `a2a`
default export, which delegates to it): construct an `OpenaiEngineBuilder`
over the (possibly freshly created) client handle, an omitted step list,
and `createAgentArgs agents`. The function is total: no error is raised at
configuration time for any `agents` value. -/
def AIAgentBuilder (σ : Type) (client : Nat)
    (agents : Option AgentArgsShape) : OpenaiEngineBuilder σ :=
  { aiClient := client
    steps := none
    agents := createAgentArgs agents }

/-! ### Executor adapter (`src/executor.ts` `convertExecutor`)

`DefaultExecutionEventBus` and `ExecutionEventQueue` are external
(`@a2a-js/sdk/server`); the spec treats them as a black box with a
documented contract: the queue lazily forwards every event published to
the bus, in publication order, until the executor signals completion via
`finished()` or the queue is closed. The wrapped executor's observable
interaction with its fresh bus is modelled as a trace of bus actions plus
the outcome of its execution promise; the adapter's generator body
(`yield* eventQueue.events(); await executionPromise`) then maps that
behaviour to the drained event list followed by the promise outcome. -/

/-- One call the executor makes on the event bus: publishing an event, or
signalling completion. -/
inductive BusAction (ε : Type) where
  | publish (e : ε)
  | finished
deriving DecidableEq, Repr

/-- The observable behaviour of one `executor.execute(requestContext,
eventBus)` run: the ordered trace of its bus calls, and the outcome of the
execution promise (`.ok` for resolution, `.error` for rejection). -/
structure ExecutorRun (ε : Type) where
  trace : List (BusAction ε)
  result : Except String Unit
deriving Repr

/-- Modelled from the spec: `ExecutionEventQueue.events()` (external
`@a2a-js/sdk/server`) forwards every event published to the bus, in
publication order, stopping at the completion signal (or when the queue is
closed, which this model identifies with the completion signal). -/
def drainEvents {ε : Type} : List (BusAction ε) → List ε
  | [] => []
  | .publish e :: rest => e :: drainEvents rest
  | .finished :: _ => []

/-- `convertExecutor` from `src/executor.ts` lines 26-54, at the trace
level: the engine yields the queue's drained events, and after the event
sequence is exhausted it awaits the execution promise, so the invocation's
final outcome is exactly that promise's outcome. -/
def convertExecutor {ε : Type} (run : ExecutorRun ε) :
    List ε × Except String Unit :=
  (drainEvents run.trace, run.result)

/-- The events the executor publishes to the bus before signalling
completion, in publication order (a spec-side description of the drained
sequence). -/
def publishedEvents {ε : Type} (trace : List (BusAction ε)) : List ε :=
  (trace.takeWhile fun a => match a with
    | .publish _ => true
    | .finished => false).filterMap fun a =>
      match a with
      | .publish e => some e
      | .finished => none

lemma drainEvents_eq_publishedEvents {ε : Type} (trace : List (BusAction ε)) :
    drainEvents trace = publishedEvents trace := by
  induction trace with
  | nil => rfl
  | cons a rest ih =>
    cases a with
    | publish e =>
      simp [drainEvents, publishedEvents, List.takeWhile] at ih ⊢
      exact ih
    | finished => rfl

/-! ## Claims -/

/-- Claim C2 (confirmed): on every input, the session assembler returns
the fixed concatenation: the explicitly supplied prior messages; then the
task-history entries, first dropping every entry whose extracted textual
content is absent, empty, `"{}"`, `"[]"`, `"null"` or `"undefined"`, then
mapping the survivors to `{role, content}` with protocol role `"agent"`
mapped to `"assistant"` and any other role to `"user"`; then the
forwarded-arguments system message (when arguments are passed); then the
current-content user message (when content is passed and non-empty); then
the tool-advertising system message (when tools are advertised). -/
theorem c2_createSession_block_order (messages : Option (List ChatMessage))
    (task : Option Task) (args : Option (List String))
    (content : Option String) (agents : Bool) :
    createSession messages task args content agents
      = (messages.getD []) ++ specHistoryBlock task ++ specArgsBlock args
          ++ specContentBlock content ++ specToolsBlock agents :=
  createSession_eq_specSession messages task args content agents

/-- Claim C4 counterexample: at the concrete input of a first pipeline step
— forwarded-argument sequence `[]` with inclusion enabled, no prior
messages, no task, no content, no tools — the assembler does append a
system message (with content `"[]"`), so the session is not empty as the
claim requires. -/
theorem c4_counterexample :
    createSession none none (some []) none false
      = [{ role := "system", content := "[]" }]
    ∧ createSession none none (some []) none false ≠ ([] : List ChatMessage) := by
  constructor
  · rfl
  · decide

/-- Claim C4 (corrected): the session assembler appends the system message
containing the JSON serialization of the forwarded-argument sequence if and
only if argument inclusion is enabled (the sequence is passed), regardless
of whether the sequence is empty; in particular for the first step of a
pipeline, whose forwarded-argument sequence is empty, a system message with
content `"[]"` is appended. -/
theorem c4_amended (messages : Option (List ChatMessage)) (task : Option Task)
    (content : Option String) (agents : Bool) (a : List String) :
    createSession messages task (some a) content agents
      = (messages.getD []) ++ specHistoryBlock task
          ++ [{ role := "system", content := stringifyArgs a }]
          ++ specContentBlock content ++ specToolsBlock agents
    ∧ createSession messages task none content agents
      = (messages.getD []) ++ specHistoryBlock task
          ++ specContentBlock content ++ specToolsBlock agents
    ∧ stringifyArgs [] = "[]" := by
  refine ⟨?_, ?_, rfl⟩
  · simpa [specSession, specArgsBlock] using
      createSession_eq_specSession messages task (some a) content agents
  · simpa [specSession, specArgsBlock] using
      createSession_eq_specSession messages task none content agents

/-- Claim C7 (confirmed): the tool bridge, given a target whose runtime
type is none of the recognized peer shapes, returns the fatal configuration
error as the synchronous result of tool-list construction (`toolifyAgents`
is a plain non-async function, so the throw is synchronous and not
retried); for each recognized shape it returns the documented tool set
without error. -/
theorem c7_toolify_dispatch :
    toolifyAgents .other = .error "Invalid agents type"
    ∧ toolifyAgents .relay = .ok toolifyAgentRelay
    ∧ toolifyAgents .service = .ok toolifyAgentInstance
    ∧ toolifyAgents .client = .ok toolifyClient
    ∧ toolifyAgentRelay.map Tool.name
        = ["relay-message-send", "relay-tasks-get", "relay-tasks-cancel",
           "relay-agents-get-card-all", "relay-agents-get-ids",
           "relay-agents-search", "relay-agents-get-card"]
    ∧ toolifyAgentInstance.map Tool.name
        = ["message-send", "get-agent-card", "tasks-get", "tasks-cancel"]
    ∧ toolifyClient.map Tool.name
        = ["message-send", "get-agent-card", "tasks-get", "tasks-cancel"] :=
  ⟨rfl, rfl, rfl, rfl, rfl, rfl, rfl⟩

/-- Claim C8 (confirmed): whenever the completion has a first choice, the
AI step's output has `parts` equal to that choice's message content (the
empty-array fallback when the content is absent) and `args` equal to the
one-element sequence containing the full raw completion object. -/
theorem c8_output_shape (completion : ChatCompletion) (c : Choice)
    (rest : List Choice) (h : completion.choices = c :: rest) :
    aiStepOutput completion
      = .ok { parts := match c.message.content with
                       | some s => Parts.text s
                       | none => Parts.emptyList
              args := [completion] } := by
  simp [aiStepOutput, h]

/-- Witness for C8: a completion with one choice whose content is
`"Hello!"` yields `parts = "Hello!"` and `args` containing the raw
completion. -/
theorem c8_output_shape_witness :
    aiStepOutput { choices := [{ message := { content := some "Hello!" } }] }
      = .ok { parts := Parts.text "Hello!"
              args := [{ choices := [{ message := { content := some "Hello!" } }] }] } :=
  c8_output_shape _ _ [] rfl

/-- Claim C9 (confirmed): on a model-client response whose `choices` array
is empty, the AI step's unguarded access `completion.choices[0].message`
throws instead of returning a step output. -/
theorem c9_empty_choices_throws :
    aiStepOutput { choices := [] }
      = .error "TypeError: cannot read properties of undefined (reading message)" :=
  rfl

/-- Claim C10 (confirmed): an `agents` argument that is defined but matches
none of the recognized shapes makes `createAgentArgs` return `undefined`,
so the builder entry point creates a builder with no peer agents and no
steps, raising no error at configuration time. -/
theorem c10_unrecognized_agents_silently_dropped (σ : Type) (client : Nat) :
    createAgentArgs (some .otherValue) = none
    ∧ (AIAgentBuilder σ client (some .otherValue)).agents = none
    ∧ (AIAgentBuilder σ client (some .otherValue)).steps = none
    ∧ (AIAgentBuilder σ client (some .otherValue)).aiClient = client :=
  ⟨rfl, rfl, rfl, rfl⟩

/-- Claim C5 (confirmed): `addStep` is a pure function of the receiver —
it returns a new builder whose step list is the receiver's step list with
the step appended, with the peer-agent configuration and client handle
unchanged; the receiver keeps its own step list, so a builder produced by a
prior `addStep` call remains usable and unaffected by later calls. -/
theorem c5_addStep_immutable (σ : Type) (b : OpenaiEngineBuilder σ)
    (s t : σ) :
    (b.addStep s).snapshotSteps = b.snapshotSteps ++ [s]
    ∧ (b.addStep s).agents = b.agents
    ∧ (b.addStep s).aiClient = b.aiClient
    ∧ ((b.addStep s).addStep t).snapshotSteps = b.snapshotSteps ++ [s, t]
    ∧ (b.addStep t).snapshotSteps = b.snapshotSteps ++ [t] := by
  refine ⟨?_, rfl, rfl, ?_, ?_⟩ <;>
    simp [OpenaiEngineBuilder.addStep, OpenaiEngineBuilder.snapshotSteps,
      OpenaiEngineBuilder.build]

/-- Claim C6 (confirmed, at the trace level): the engine produced by
`convertExecutor` yields exactly the events the executor publishes to the
bus before signalling completion, in publication order, and after the event
sequence is exhausted its outcome is the execution promise's outcome, so a
rejection of that promise propagates to the engine's caller. -/
theorem c6_convertExecutor_drain_and_join (ε : Type) (run : ExecutorRun ε) :
    (convertExecutor run).1 = publishedEvents run.trace
    ∧ (convertExecutor run).2 = run.result :=
  ⟨drainEvents_eq_publishedEvents run.trace, rfl⟩

/-! ### Claim C1 -/

/-- The concrete counterexample input for C1: all three inclusion flags
`false`, one prior message in the request body, and a peer-agent relay
configured. -/
def c1Args : AIStepArgsModel :=
  { settings := some { includeHistory := some false, includeArgs := some false,
                       includeContent := some false, disableAgents := some false }
    bodyMessages := some [{ role := "system", content := "You are a helpful assistant." }]
    agents := some .relay }

/-- Concrete step parameters for C1's counterexample. -/
def c1Params : StepParamsModel :=
  { task := { history := some [] }, args := [], content := "Hi" }

/-- Claim C1 counterexample: with `includeHistory=false, includeArgs=false,
includeContent=false` but a peer-agent relay configured, the assembled
session is the prior messages plus the tool-advertising system message —
not exactly the prior messages. -/
theorem c1_counterexample :
    aiStepSession c1Args c1Params
      = .ok [{ role := "system", content := "You are a helpful assistant." },
             agentsAdvertMessage]
    ∧ aiStepSession c1Args c1Params
      ≠ .ok [{ role := "system", content := "You are a helpful assistant." }] := by
  constructor
  · rfl
  · decide

/-- Claim C1 (corrected): with `includeHistory=false, includeArgs=false,
includeContent=false` and the peer-agent target not of the unrecognized
runtime type, the assembled session equals exactly the prior messages
supplied in the request body when no peer agents are configured; when peer
agents are configured, the tool-advertising system message is additionally
appended (even when `disableAgents` is true). -/
theorem c1_amended (sa : AIStepArgsModel) (params : StepParamsModel)
    (st : AIStepSettings) (hs : sa.settings = some st)
    (hh : st.includeHistory = some false)
    (ha : st.includeArgs = some false)
    (hc : st.includeContent = some false)
    (hag : sa.agents ≠ some AgentTarget.other) :
    aiStepSession sa params
      = .ok (sa.bodyMessages.getD []
          ++ (match sa.agents with
              | none => []
              | some _ => [agentsAdvertMessage])) := by
  rcases hA : sa.agents with _ | a
  · simp [aiStepSession, hs, hA, resolveSettings, truthy, hh, ha, hc,
      createSession]
  · cases a <;>
      simp [aiStepSession, hs, hA, resolveSettings, truthy, hh, ha, hc,
        createSession, toolifyAgents, toolifyAgentRelay, toolifyAgentInstance,
        toolifyClient] <;>
      first
        | rfl
        | exact absurd hA hag

/-- Witness for C1's amended theorem: a concrete step-args bundle with all
three flags `false` and a client peer agent — the session is the single
prior message followed by the advert message. -/
theorem c1_amended_witness :
    aiStepSession
      { settings := some { includeHistory := some false, includeArgs := some false,
                           includeContent := some false, disableAgents := some true }
        bodyMessages := some [{ role := "system", content := "sys" }]
        agents := some AgentTarget.client }
      { task := { history := some [{ role := "user", content := some "past" }] }
        args := ["7"], content := "now" }
      = .ok [{ role := "system", content := "sys" }, agentsAdvertMessage] :=
  c1_amended _ _ _ rfl rfl rfl rfl (by decide)

/-! ### Claim C3 -/

/-- A settings object that sets only `disableAgents`, leaving the three
inclusion flags absent. -/
def c3PartialSettings : AIStepSettings :=
  { includeHistory := none, includeArgs := none, includeContent := none,
    disableAgents := some false }

/-- Step args carrying the partial settings object, with no body messages
and no peer agents. -/
def c3Args : AIStepArgsModel :=
  { settings := some c3PartialSettings, bodyMessages := some [], agents := none }

/-- Step parameters with a non-trivial task history, forwarded arguments
and content, so that the three inclusion flags are observable. -/
def c3Params : StepParamsModel :=
  { task := { history := some [{ role := "user", content := some "hello" }] }
    args := ["1"], content := "hi" }

/-- Claim C3 counterexample: a settings object that sets only
`disableAgents` does not resolve the absent flags to their documented
`true` defaults — they behave as `false`: the assembled session is empty,
whereas omitting the settings object entirely (which does trigger the
defaults) yields the history, arguments and content messages. -/
theorem c3_counterexample :
    effectiveSetting AIStepSettings.includeHistory (some c3PartialSettings) = false
    ∧ effectiveSetting AIStepSettings.includeArgs (some c3PartialSettings) = false
    ∧ effectiveSetting AIStepSettings.includeContent (some c3PartialSettings) = false
    ∧ aiStepSession c3Args c3Params = .ok []
    ∧ aiStepSession { c3Args with settings := none } c3Params
      = .ok [{ role := "user", content := "hello" },
             { role := "system", content := "[1]" },
             { role := "user", content := "hi" }]
    ∧ aiStepSession c3Args c3Params
      ≠ aiStepSession { c3Args with settings := none } c3Params := by
  refine ⟨rfl, rfl, rfl, rfl, by decide, by decide⟩

/-- Claim C3 (corrected): `aiStep` resolves the settings bundle to the
defaults `includeHistory=true, includeArgs=true, includeContent=true,
disableAgents=false` only when the settings object is absent as a whole;
when a settings object is supplied, it is used as-is and each individually
absent field behaves as `false` (so the three inclusion flags lose their
documented `true` default, while an absent `disableAgents` coincides with
its `false` default). -/
theorem c3_amended (st : AIStepSettings) :
    resolveSettings none = defaultSettings
    ∧ truthy defaultSettings.includeHistory = true
    ∧ truthy defaultSettings.includeArgs = true
    ∧ truthy defaultSettings.includeContent = true
    ∧ truthy defaultSettings.disableAgents = false
    ∧ resolveSettings (some st) = st
    ∧ effectiveSetting AIStepSettings.includeHistory (some st)
        = st.includeHistory.getD false
    ∧ effectiveSetting AIStepSettings.includeArgs (some st)
        = st.includeArgs.getD false
    ∧ effectiveSetting AIStepSettings.includeContent (some st)
        = st.includeContent.getD false
    ∧ effectiveSetting AIStepSettings.disableAgents (some st)
        = st.disableAgents.getD false := by
  refine ⟨rfl, rfl, rfl, rfl, rfl, rfl, ?_, ?_, ?_, ?_⟩ <;>
    [cases h : st.includeHistory; cases h : st.includeArgs;
     cases h : st.includeContent; cases h : st.disableAgents] <;>
    simp [effectiveSetting, resolveSettings, truthy, h]

end EasyA2A
